import Mathlib

/-!
# Verification of the interview-session lifecycle service

Shallow embedding of the session routes of the `custiq-backend` service
(`src/routes/sessions.ts` — current revision, the one carrying
`participantEmail` and the completion counter, consistent with
`src/routes/internal.ts` and the `20260205_add_completed_sessions_count`
migration — plus `src/routes/internal.ts` and `src/routes/research.ts`).

The relational store is a record of lists (`DB`).  Each HTTP handler
becomes a pure function `DB → inputs → DB × Reply`; a Prisma
`$transaction` is a single such step, so both of its writes land in the
same output state.  JavaScript runtime values that the code inspects
dynamically (`??`, truthiness, `typeof x === "number"`) are modelled by
the `JsVal` type; numbers are `Int` (no claim depends on fractional
values); `Date` values are integer timestamps (milliseconds).
-/

/-- A JavaScript runtime value, as far as the handlers inspect one:
`??` distinguishes null/undefined, `typeof` distinguishes numbers and
strings, and `if (x)` uses truthiness. -/
inductive JsVal where
  | null
  | undef
  | boolean ( b : Bool)
  | num (n : Int)
  | str (s : String)
  | arr (xs : List JsVal)

mutual

/-- Structural equality test for `JsVal` (deriving cannot handle the
nested `List`). -/
def JsVal.beq : JsVal → JsVal → Bool
  | .null, .null => true
  | .undef, .undef => true
  | .boolean a, .boolean b => a == b
  | .num a, .num b => a == b
  | .str a, .str b => a == b
  | .arr xs, .arr ys => JsVal.beqList xs ys
  | _, _ => false

/-- Pointwise `JsVal.beq` on lists. -/
def JsVal.beqList : List JsVal → List JsVal → Bool
  | [], [] => true
  | x :: xs, y :: ys => JsVal.beq x y && JsVal.beqList xs ys
  | _, _ => false

end

mutual

theorem JsVal.eq_of_beq : ∀ (a b : JsVal), JsVal.beq a b = true → a = b
  | .null, .null, _ => rfl
  | .undef, .undef, _ => rfl
  | .boolean a, .boolean b, h => by
      have : a = b := by simpa [JsVal.beq] using h
      rw [this]
  | .num a, .num b, h => by
      have : a = b := by simpa [JsVal.beq] using h
      rw [this]
  | .str a, .str b, h => by
      have : a = b := by simpa [JsVal.beq] using h
      rw [this]
  | .arr xs, .arr ys, h => by
      rw [JsVal.eqList_of_beqList xs ys (by simpa [JsVal.beq] using h)]

theorem JsVal.eqList_of_beqList :
    ∀ (xs ys : List JsVal), JsVal.beqList xs ys = true → xs = ys
  | [], [], _ => rfl
  | x :: xs, y :: ys, h => by
      have hh := h
      simp only [JsVal.beqList, Bool.and_eq_true] at hh
      rw [JsVal.eq_of_beq x y hh.1, JsVal.eqList_of_beqList xs ys hh.2]

end

mutual

theorem JsVal.beq_refl : ∀ (a : JsVal), JsVal.beq a a = true
  | .null => rfl
  | .undef => rfl
  | .boolean a => by simp [JsVal.beq]
  | .num a => by simp [JsVal.beq]
  | .str a => by simp [JsVal.beq]
  | .arr xs => by simpa [JsVal.beq] using JsVal.beqList_refl xs

theorem JsVal.beqList_refl : ∀ (xs : List JsVal), JsVal.beqList xs xs = true
  | [] => rfl
  | x :: xs => by
      simp only [JsVal.beqList, Bool.and_eq_true]
      exact ⟨JsVal.beq_refl x, JsVal.beqList_refl xs⟩

end

instance : DecidableEq JsVal := fun a b =>
  if h : JsVal.beq a b = true then isTrue (JsVal.eq_of_beq a b h)
  else isFalse (fun he => h (he ▸ JsVal.beq_refl a))

/-- JavaScript `x ?? d`: take `d` exactly when `x` is null or undefined. -/
def nullishOr (x d : JsVal) : JsVal :=
  match x with
  | .null => d
  | .undef => d
  | v => v

/-- JavaScript truthiness (`if (x)`): null, undefined, false, 0 and ""
are falsy; arrays are truthy. -/
def truthy : JsVal → Bool
  | .null => false
  | .undef => false
  | .boolean b => b
  | .num n => !(n == 0)
  | .str s => !(s == "")
  | .arr _ => true

/-- JavaScript `typeof x === "number"`. -/
def isNumberVal : JsVal → Bool
  | .num _ => true
  | _ => false

/-- JavaScript `String.prototype.trim`, modelled over the character
list so that it evaluates inside the kernel. -/
def jsTrim (s : String) : String :=
  String.mk (((s.data.dropWhile Char.isWhitespace).reverse.dropWhile
    Char.isWhitespace).reverse)

/-- JavaScript `s.slice(0, n)`, modelled over the character list. -/
def jsSlice (n : Nat) (s : String) : String :=
  String.mk (s.data.take n)

/-- The `globalContextSnapshot` shape built by `buildGlobalSnapshot`. -/
structure GlobalSnapshot where
  companyName : String
  shortAbout : String
  blockedTopics : List String
  interviewLanguage : String
  primaryCustomerType : String
deriving DecidableEq, Repr

/-- The `researchContextSnapshot` shape built by `buildResearchSnapshot`. -/
structure ResearchSnapshot where
  researchName : String
  researchAbout : String
  primaryGoal : String
  audiences : List String
  focusAreas : List String
  deepDive : String
  competitors : String
  topicsToAvoid : String
deriving DecidableEq, Repr

/-- A row of the `User` table (the columns the embedded handlers read). -/
structure User where
  id : String
  clerkUserId : String
  completedSessionsCount : Nat
  companyName : Option String
  shortAbout : Option String
  blockedTopics : List String
  interviewLanguage : String
  primaryCustomerType : Option String
deriving DecidableEq, Repr

/-- A row of the `Research` table. -/
structure Research where
  id : String
  userId : String
  researchName : String
  researchAbout : Option String
  primaryGoal : String
  audiences : List String
  focusAreas : List String
  deepDive : Option String
  competitors : Option String
  topicsToAvoid : Option String
deriving DecidableEq, Repr

/-- A row of the `Interview` table (the columns session creation reads). -/
structure Interview where
  id : String
  userId : String
  researchId : Option String
  interviewSlug : String
  active : Bool
  publicTitle : String
  interviewLength : String
  interviewTone : String
deriving DecidableEq, Repr

/-- A row of the `InterviewSession` table. -/
structure Session where
  id : String
  researchId : String
  interviewId : String
  createdBy : String
  status : String
  mode : String
  participantName : String
  participantEmail : Option String
  sessionToken : String
  promptVersionId : String
  personaId : String
  globalContextSnapshot : GlobalSnapshot
  researchContextSnapshot : ResearchSnapshot
  completed : Bool
  startedAt : Int
  endedAt : Option Int
  lastActivityAt : Int
  compiledPromptHash : Option String
deriving DecidableEq, Repr

/-- A row of the `TranscriptSegment` table.  `createdAt` is a sequence
number: rows are appended in insertion order and read back ordered by it. -/
structure StoredSegment where
  interviewSessionId : String
  role : String
  text : String
  tsStart : Option Int
  tsEnd : Option Int
  metaJson : JsVal
  createdAt : Nat
deriving DecidableEq

/-- A row of the `InterviewReport` table (`interviewSessionId` is its
unique key).  `reviewJson = none` models `Prisma.JsonNull`. -/
structure Report where
  interviewSessionId : String
  summary : String
  keyQuotesJson : JsVal
  painsJson : JsVal
  opportunitiesJson : JsVal
  reviewJson : Option JsVal
  interviewCompleted : Bool
deriving DecidableEq

/-- The relational store. -/
structure DB where
  users : List User
  researches : List Research
  interviews : List Interview
  sessions : List Session
  segments : List StoredSegment
  reports : List Report
deriving DecidableEq

/-- Reply sent by a handler, abstracting the HTTP status codes the
routes use: 200 `ok`, 400 `badRequest`, 401 `unauthorized`,
403 `forbidden`, 404 `notFound`, 501 `notConfigured`. -/
inductive Reply where
  | ok
  | badRequest (msg : String)
  | unauthorized
  | forbidden (msg : String)
  | notFound (msg : String)
  | notConfigured
deriving DecidableEq, Repr

/-! ## Session resolution (`getSessionToken` / `resolveSession`) -/

/-- JavaScript string truthiness for an optional string (`!token`,
`!id`): absent or empty is falsy. -/
def isPresent : Option String → Bool
  | none => false
  | some s => !(s == "")

/-- Models `header.replace(/^Bearer\s+/i, "")`: strips one leading
case-insensitive `Bearer` followed by at least one whitespace
character; otherwise returns the string unchanged. -/
def stripBearer (s : String) : String :=
  let lower6 := (s.data.take 6).map Char.toLower
  if lower6 = ['b', 'e', 'a', 'r', 'e', 'r'] then
    let rest := s.data.drop 6
    let stripped := rest.dropWhile Char.isWhitespace
    if stripped.length < rest.length then String.mk stripped else s
  else s

/-- `getSessionToken` (sessions.ts): prefer the `x-session-token`
header, then `authorization` (Bearer-stripped), then the `token` query
parameter; trim; an empty result is `null`.  Headers are modelled as at
most one string value. -/
def getSessionToken (xSessionTok auth queryTok : Option String) : Option String :=
  let header : Option String :=
    match xSessionTok with
    | some h => some h
    | none => auth
  let value : String :=
    jsTrim (match header with
     | some h => stripBearer h
     | none => queryTok.getD "")
  if value == "" then none else some value

/-- `prisma.interviewSession.findUnique({ where: { sessionToken } })`. -/
def findByToken (db : DB) (t : String) : Option Session :=
  db.sessions.find? (fun s => s.sessionToken == t)

/-- `prisma.interviewSession.findUnique({ where: { id } })`. -/
def findById (db : DB) (i : String) : Option Session :=
  db.sessions.find? (fun s => s.id == i)

/-- Outcome of `resolveSession`. -/
inductive ResolveResult where
  | ok (s : Session)
  | invalidRequest
  | notFound
  | forbidden
deriving DecidableEq, Repr

/-- `resolveSession` (sessions.ts): token lookup first; if the token
misses and an id is supplied, fall back to id lookup, rejecting with
403 when the resolved record's stored token differs from the supplied
token.  `tok` is the result of `getSessionToken`. -/
def resolveSession (db : DB) (paramsId tok : Option String) : ResolveResult :=
  let id : Option String := paramsId.map (fun s => jsTrim s)
  if !(isPresent tok) && !(isPresent id) then .invalidRequest
  else
    match (if isPresent tok then findByToken db (tok.getD "") else none) with
    | some s => .ok s
    | none =>
      if isPresent tok && !(isPresent id) then .notFound
      else
        match findById db (id.getD "") with
        | none => .notFound
        | some s =>
          if isPresent tok && !(s.sessionToken == tok.getD "") then .forbidden
          else .ok s

/-- `resolveSession` applied to the raw request inputs (headers and
query), composing `getSessionToken`. -/
def resolveSessionRaw (db : DB) (paramsId xSessionTok auth queryTok : Option String) :
    ResolveResult :=
  resolveSession db paramsId (getSessionToken xSessionTok auth queryTok)

/-! ## Snapshot builders and session creation (POST /public/sessions) -/

/-- `buildGlobalSnapshot` (sessions.ts): company configuration frozen
into the session; absent text fields normalize to `""` (`?? ""`), the
collection to `[]` (`blockedTopics` is a non-nullable column, so the
`?? []` in the source is the identity here). -/
def buildGlobalSnapshot (u : User) : GlobalSnapshot :=
  { companyName := u.companyName.getD ""
    shortAbout := u.shortAbout.getD ""
    blockedTopics := u.blockedTopics
    interviewLanguage := u.interviewLanguage
    primaryCustomerType := u.primaryCustomerType.getD "" }

/-- `buildResearchSnapshot` (sessions.ts). -/
def buildResearchSnapshot (r : Research) : ResearchSnapshot :=
  { researchName := r.researchName
    researchAbout := r.researchAbout.getD ""
    primaryGoal := r.primaryGoal
    audiences := r.audiences
    focusAreas := r.focusAreas
    deepDive := r.deepDive.getD ""
    competitors := r.competitors.getD ""
    topicsToAvoid := r.topicsToAvoid.getD "" }

/-- JavaScript `s.includes(pat)` for a non-empty pattern. -/
def strIncludes (s pat : String) : Bool :=
  (s.splitOn pat).length > 1

/-- `toneToPersonaId` (sessions.ts): keyword containment on the
lowercased tone, in source order, defaulting to "professional". -/
def toneToPersonaId (tone : String) : String :=
  let lower := tone.toLower
  if strIncludes lower "conversational" then "conversational"
  else if strIncludes lower "professional" then "professional"
  else if strIncludes lower "empathetic" then "empathetic"
  else "professional"

/-- Body of `POST /public/sessions`. -/
structure CreateSessionBody where
  slug : Option String
  participantName : Option String
  participantEmail : Option String
  mode : Option String
deriving DecidableEq, Repr

/-- The `modes` constant of sessions.ts. -/
def modes : List String := ["text", "voice"]

/-- `POST /public/sessions` (sessions.ts): validate the body, look up
the active interview by slug together with its research and owning
user, freeze both snapshots, and insert the new session.  `newId`,
`token` (the generated `randomBytes` hex token) and `now` are inputs of
the model. -/
def createSessionRoute (db : DB) (body : Option CreateSessionBody)
    (newId token : String) (now : Int) : DB × Reply :=
  match body with
  | none => (db, .badRequest "Body required")
  | some b =>
    let slug := jsTrim (b.slug.getD "")
    let participantName := jsTrim (b.participantName.getD "")
    let participantEmail := jsTrim (b.participantEmail.getD "")
    if slug == "" then (db, .badRequest "slug is required")
    else if participantName == "" then (db, .badRequest "participantName is required")
    else
      match b.mode with
      | none => (db, .badRequest "mode must be text or voice")
      | some mode =>
        if !(modes.contains mode) then (db, .badRequest "mode must be text or voice")
        else
          match db.interviews.find? (fun i => i.interviewSlug == slug && i.active) with
          | none => (db, .notFound "Interview not found or inactive")
          | some interview =>
            match interview.researchId with
            | none => (db, .notFound "Interview not found or inactive")
            | some rid =>
              match db.researches.find? (fun r => r.id == rid) with
              | none => (db, .notFound "Interview not found or inactive")
              | some research =>
                match db.users.find? (fun u => u.id == interview.userId) with
                | none => (db, .notFound "Interview not found or inactive")
                | some user =>
                  let created : Session :=
                    { id := newId
                      researchId := research.id
                      interviewId := interview.id
                      createdBy := user.id
                      status := "active"
                      mode := mode
                      participantName := participantName
                      participantEmail :=
                        if participantEmail == "" then none else some participantEmail
                      sessionToken := token
                      promptVersionId := "interviewer_v1"
                      personaId := toneToPersonaId interview.interviewTone
                      globalContextSnapshot := buildGlobalSnapshot user
                      researchContextSnapshot := buildResearchSnapshot research
                      completed := false
                      startedAt := now
                      endedAt := none
                      lastActivityAt := now
                      compiledPromptHash := none }
                  ({ db with sessions := db.sessions ++ [created] }, .ok)

/-! ## Session patching and the completion counter -/

/-- Body of `PATCH /public/sessions/:id`.  Timestamp-valued fields are
pre-parsed integers (`new Date(...)`). -/
structure PatchBody where
  status : Option String
  endedAt : Option Int
  completed : Option Bool
  lastActivityAt : Option Int
  compiledPromptHash : Option String
deriving DecidableEq, Repr

/-- The `updates` object of the public patch handler applied to a
stored session: only fields present in the request change. -/
def applySessionUpdates (s : Session) (b : PatchBody) : Session :=
  { s with
    status := b.status.getD s.status
    endedAt := match b.endedAt with | some t => some t | none => s.endedAt
    completed := b.completed.getD s.completed
    lastActivityAt := b.lastActivityAt.getD s.lastActivityAt
    compiledPromptHash :=
      match b.compiledPromptHash with | some h => some h | none => s.compiledPromptHash }

/-- `shouldIncrementCompleted` guard of both patch paths:
`body.completed !== undefined && Boolean(body.completed) && !session.completed`,
where `session` is the stored row read before the update. -/
def shouldIncrementCompleted (completedField : Option Bool) (s : Session) : Bool :=
  completedField.isSome && completedField.getD false && !s.completed

/-- `prisma.interviewSession.update({ where: { id } })`: rewrite the
rows whose id matches. -/
def patchMap (k : String) (g : Session → Session) (s : Session) : Session :=
  if s.id == k then g s else s

/-- The session list after an update keyed by id. -/
def updateSessionById (l : List Session) (k : String) (g : Session → Session) :
    List Session :=
  l.map (patchMap k g)

/-- `prisma.user.update({ data: { completedSessionsCount: { increment: 1 } } })`. -/
def incrementCompletedCount (l : List User) (uid : String) : List User :=
  l.map (fun u =>
    if u.id == uid then { u with completedSessionsCount := u.completedSessionsCount + 1 }
    else u)

/-- The stored `completedSessionsCount` of a user, when the user exists. -/
def userCount (db : DB) (uid : String) : Option Nat :=
  (db.users.find? (fun u => u.id == uid)).map (fun u => u.completedSessionsCount)

/-- `PATCH /public/sessions/:id` (sessions.ts, current revision):
resolve, build the partial update, and when the request sets
`completed` truthy on a session whose stored flag was false, apply the
session update and the owner-counter increment in one `$transaction`
(one step of this model). -/
def publicPatchSession (db : DB) (pid xSessionTok auth queryTok : Option String)
    (body : PatchBody) : DB × Reply :=
  match resolveSessionRaw db pid xSessionTok auth queryTok with
  | .invalidRequest => (db, .badRequest "Session token or session id required")
  | .notFound => (db, .notFound "Session not found")
  | .forbidden => (db, .forbidden "Invalid session token")
  | .ok s =>
    let db1 : DB :=
      { db with sessions := updateSessionById db.sessions s.id (fun t => applySessionUpdates t body) }
    if shouldIncrementCompleted body.completed s then
      ({ db1 with users := incrementCompletedCount db1.users s.createdBy }, .ok)
    else (db1, .ok)

/-- Body of `PATCH /internal/sessions/:id` (no `lastActivityAt` /
`compiledPromptHash` fields). -/
structure InternalPatchBody where
  status : Option String
  endedAt : Option Int
  completed : Option Bool
deriving DecidableEq, Repr

/-- The internal patch handler's `updates` object applied to a session. -/
def applyInternalUpdates (s : Session) (b : InternalPatchBody) : Session :=
  { s with
    status := b.status.getD s.status
    endedAt := match b.endedAt with | some t => some t | none => s.endedAt
    completed := b.completed.getD s.completed }

/-- Outcome of `checkInternalSecret`. -/
inductive InternalAuth where
  | ok
  | unauthorized
  | notConfigured
deriving DecidableEq, Repr

/-- `checkInternalSecret` (internal.ts): 501 when no secret is
configured (a falsy `INTERNAL_CRON_SECRET`), 401 unless the
`x-internal-secret` header — or the Bearer-stripped `authorization`
header — equals the secret. -/
def checkInternalSecret (cfgSecret xInternalSecret auth : Option String) : InternalAuth :=
  if !(isPresent cfgSecret) then .notConfigured
  else
    let header : Option String :=
      match xInternalSecret with
      | some h => some h
      | none => auth.map stripBearer
    if header == some (cfgSecret.getD "") then .ok else .unauthorized

/-- `PATCH /internal/sessions/:id` (internal.ts): secret check, id
check, read the stored session, then the same guarded
update-plus-increment transaction as the public path. -/
def internalPatchSession (db : DB) (cfgSecret xInternalSecret auth : Option String)
    (pid : Option String) (body : InternalPatchBody) : DB × Reply :=
  match checkInternalSecret cfgSecret xInternalSecret auth with
  | .notConfigured => (db, .notConfigured)
  | .unauthorized => (db, .unauthorized)
  | .ok =>
    let id := (pid.map (fun s => jsTrim s))
    if !(isPresent id) then (db, .badRequest "id required")
    else
      match findById db (id.getD "") with
      | none => (db, .notFound "Session not found")
      | some s =>
        let db1 : DB :=
          { db with
            sessions :=
              updateSessionById db.sessions (id.getD "")
                (fun t => applyInternalUpdates t body) }
        if shouldIncrementCompleted body.completed s then
          ({ db1 with users := incrementCompletedCount db1.users s.createdBy }, .ok)
        else (db1, .ok)

/-- N-fold repetition of one and the same public patch request
(client retries). -/
def iteratePublicPatch (pid xSessionTok auth queryTok : Option String)
    (body : PatchBody) : Nat → DB → DB
  | 0, db => db
  | n + 1, db =>
    (publicPatchSession (iteratePublicPatch pid xSessionTok auth queryTok body n db)
      pid xSessionTok auth queryTok body).1

/-- N-fold repetition of one and the same internal patch request. -/
def iterateInternalPatch (cfgSecret xInternalSecret auth pid : Option String)
    (body : InternalPatchBody) : Nat → DB → DB
  | 0, db => db
  | n + 1, db =>
    (internalPatchSession
      (iterateInternalPatch cfgSecret xInternalSecret auth pid body n db)
      cfgSecret xInternalSecret auth pid body).1

/-! ## Transcript append log (POST /public/sessions/:id/transcript-segments) -/

/-- One element of the request's `segments` array.  Fields the client
may omit are `Option`/`JsVal.undef`; `tsStart`/`tsEnd` are raw runtime
values because the handler checks `typeof === "number"`. -/
structure SegIn where
  role : Option String
  text : Option String
  tsStart : JsVal
  tsEnd : JsVal
  metaJson : JsVal
deriving DecidableEq

/-- The `createMany` row built from one input segment:
`String(s.role ?? "user").slice(0, 32)`, `String(s.text ?? "")`,
numeric-only timestamp offsets, `metaJson ?? undefined`. -/
def toStoredSegment (sid : String) (seq : Nat) (g : SegIn) : StoredSegment :=
  { interviewSessionId := sid
    role := jsSlice 32 (g.role.getD "user")
    text := g.text.getD ""
    tsStart := match g.tsStart with | .num n => some n | _ => none
    tsEnd := match g.tsEnd with | .num n => some n | _ => none
    metaJson := nullishOr g.metaJson .undef
    createdAt := seq }

/-- Rows inserted by `createMany`, in batch order, numbered from `base`. -/
def storeSegments (sid : String) : Nat → List SegIn → List StoredSegment
  | _, [] => []
  | base, g :: gs => toStoredSegment sid base g :: storeSegments sid (base + 1) gs

/-- `POST /public/sessions/:id/transcript-segments` (sessions.ts):
resolve, require status "active", require a non-empty `segments`
array, then — in one `$transaction` — insert the batch and bump
`lastActivityAt` to `now`.  `body = none` models a missing or
non-array `segments` field. -/
def postTranscriptSegments (db : DB) (pid xSessionTok auth queryTok : Option String)
    (body : Option (List SegIn)) (now : Int) : DB × Reply :=
  match resolveSessionRaw db pid xSessionTok auth queryTok with
  | .invalidRequest => (db, .badRequest "Session token or session id required")
  | .notFound => (db, .notFound "Session not found")
  | .forbidden => (db, .forbidden "Invalid session token")
  | .ok s =>
    if !(s.status == "active") then (db, .badRequest "Session is not active")
    else
      match body with
      | none => (db, .badRequest "segments array is required")
      | some segs =>
        if segs.isEmpty then (db, .badRequest "segments array is required")
        else
          ({ db with
             segments := db.segments ++ storeSegments s.id db.segments.length segs
             sessions :=
               updateSessionById db.sessions s.id
                 (fun t => { t with lastActivityAt := now }) }, .ok)

/-! ## Report store (report upsert routes) -/

/-- Body of the report upsert routes.  `summary` is a raw runtime value
(the handler checks `typeof === "string"`); the JSON payloads are
opaque values. -/
structure ReportBody where
  summary : JsVal
  keyQuotesJson : JsVal
  painsJson : JsVal
  opportunitiesJson : JsVal
  reviewJson : JsVal
  interviewCompleted : Option Bool
deriving DecidableEq

/-- The report row a valid body writes (both the `create` and `update`
arms of the upsert write these same fields): nullish JSON collections
default to `[]`, a falsy `reviewJson` becomes `Prisma.JsonNull`, and
`interviewCompleted !== false`. -/
def reportData (sid : String) (b : ReportBody) : Report :=
  { interviewSessionId := sid
    summary := match b.summary with | .str s => s | _ => ""
    keyQuotesJson := nullishOr b.keyQuotesJson (.arr [])
    painsJson := nullishOr b.painsJson (.arr [])
    opportunitiesJson := nullishOr b.opportunitiesJson (.arr [])
    reviewJson := if truthy b.reviewJson then some b.reviewJson else none
    interviewCompleted := !(b.interviewCompleted == some false) }

/-- `prisma.interviewReport.upsert` keyed by the unique
`interviewSessionId`: replace the matching row, or append when absent. -/
def upsertReport (rs : List Report) (r : Report) : List Report :=
  if rs.any (fun x => x.interviewSessionId == r.interviewSessionId) then
    rs.map (fun x => if x.interviewSessionId == r.interviewSessionId then r else x)
  else rs ++ [r]

/-- `typeof body.summary === "string"`. -/
def isStringVal : JsVal → Bool
  | .str _ => true
  | _ => false

/-- `POST /internal/sessions/:id/report` (internal.ts): secret check,
id check, `summary` type check, then upsert. -/
def internalPostReport (db : DB) (cfgSecret xInternalSecret auth : Option String)
    (pid : Option String) (body : Option ReportBody) : DB × Reply :=
  match checkInternalSecret cfgSecret xInternalSecret auth with
  | .notConfigured => (db, .notConfigured)
  | .unauthorized => (db, .unauthorized)
  | .ok =>
    let id := (pid.map (fun s => jsTrim s))
    if !(isPresent id) then (db, .badRequest "id required")
    else
      match body with
      | none => (db, .badRequest "summary required")
      | some b =>
        if !(isStringVal b.summary) then (db, .badRequest "summary required")
        else
          ({ db with reports := upsertReport db.reports (reportData (id.getD "") b) }, .ok)

/-- `POST /public/sessions/:id/report` (sessions.ts): resolve, check
`summary`, then the same upsert keyed by the resolved session's id. -/
def publicPostReport (db : DB) (pid xSessionTok auth queryTok : Option String)
    (body : Option ReportBody) : DB × Reply :=
  match resolveSessionRaw db pid xSessionTok auth queryTok with
  | .invalidRequest => (db, .badRequest "Session token or session id required")
  | .notFound => (db, .notFound "Session not found")
  | .forbidden => (db, .forbidden "Invalid session token")
  | .ok s =>
    match body with
    | none => (db, .badRequest "summary is required")
    | some b =>
      if !(isStringVal b.summary) then (db, .badRequest "summary is required")
      else
        ({ db with reports := upsertReport db.reports (reportData s.id b) }, .ok)

/-! ## Staleness sweep (GET /internal/sessions/stale) -/

/-- Result of the JavaScript `Number(...)` coercion on the `minutes`
query parameter: `nan` for an absent or non-numeric value (numeric
strings are modelled as integers). -/
inductive NumVal where
  | nan
  | val (n : Int)
deriving DecidableEq, Repr

/-- `Number(request.query?.minutes) || 30`: NaN and 0 are falsy. -/
def minutesOrDefault (q : NumVal) : Int :=
  match q with
  | .nan => 30
  | .val n => if n == 0 then 30 else n

/-- `Math.min(60, Math.max(5, Number(request.query?.minutes) || 30))`. -/
def effectiveMinutes (q : NumVal) : Int :=
  min 60 (max 5 (minutesOrDefault q))

/-- The `findMany` of the stale sweep: active sessions whose
`lastActivityAt` is strictly before `now` minus the effective window. -/
def staleSessions (db : DB) (q : NumVal) (now : Int) : List Session :=
  let cutoff := now - effectiveMinutes q * 60 * 1000
  db.sessions.filter (fun s => s.status == "active" && decide (s.lastActivityAt < cutoff))

/-- Reply of `GET /internal/sessions/stale`. -/
inductive StaleReply where
  | ok (sessions : List Session)
  | unauthorized
  | notConfigured
deriving DecidableEq

/-- `GET /internal/sessions/stale` (internal.ts): secret check, then
the read-only selection; the store is returned unchanged.  The route's
field projection (id, ordered segments, …) is applied by the caller of
this model. -/
def internalStaleRoute (db : DB) (cfgSecret xInternalSecret auth : Option String)
    (q : NumVal) (now : Int) : DB × StaleReply :=
  match checkInternalSecret cfgSecret xInternalSecret auth with
  | .notConfigured => (db, .notConfigured)
  | .unauthorized => (db, .unauthorized)
  | .ok => (db, .ok (staleSessions db q now))

/-! ## Research configuration update (PUT /researches/:id, research.ts) -/

/-- The constant `primaryInterviewGoals` (types/research.ts). -/
def primaryInterviewGoals : List String :=
  ["Discovery Research", "Concept Validation", "Usability Testing", "Competitive Analysis"]

/-- The constant `researchAudiences` (types/research.ts). -/
def researchAudiences : List String :=
  ["Existing Customers", "Potential Customers", "Churned Users", "Internal Stakeholders"]

/-- The constant `researchFocusAreas` (types/research.ts). -/
def researchFocusAreas : List String :=
  ["Overall experience", "Expectations & needs", "Challenges & blockers",
   "Decision-making process", "Pricing perception", "Relationship / communication"]

/-- `sanitizeText` (research.ts): `value?.trim() ?? ""`. -/
def sanitizeText (v : Option String) : String :=
  (v.map (fun s => jsTrim s)).getD ""

/-- `isValidArray` (research.ts) on the already string-typed model:
every element is one of the allowed values. -/
def isValidArray (values allowed : List String) : Bool :=
  values.all (fun item => allowed.contains item)

/-- The `ResearchPayload` request body. -/
structure ResearchPayload where
  researchName : Option String
  researchAbout : Option String
  primaryGoal : String
  audiences : List String
  focusAreas : List String
  deepDive : Option String
  competitors : Option String
  topicsToAvoid : Option String
deriving DecidableEq, Repr

/-- The sanitized fields `validatePayload` returns. -/
structure ValidatedResearch where
  researchName : String
  researchAbout : Option String
  deepDive : Option String
  competitors : Option String
  topicsToAvoid : Option String
deriving DecidableEq, Repr

/-- `validatePayload` (research.ts): sanitize, enforce the length
bounds and the allowed-value lists; `none` models the handler replying
400 (the individual 400 messages are collapsed into one reply). -/
def validatePayload (b : ResearchPayload) : Option ValidatedResearch :=
  let researchName := sanitizeText b.researchName
  let researchAbout := let t := sanitizeText b.researchAbout; if t == "" then none else some t
  let deepDive := let t := sanitizeText b.deepDive; if t == "" then none else some t
  let competitors := let t := sanitizeText b.competitors; if t == "" then none else some t
  let topicsToAvoid := let t := sanitizeText b.topicsToAvoid; if t == "" then none else some t
  if researchName == "" || researchName.length > 80 then none
  else if (researchAbout.getD "").length > 200 then none
  else if (deepDive.getD "").length > 140 then none
  else if (competitors.getD "").length > 120 then none
  else if (topicsToAvoid.getD "").length > 120 then none
  else if !(primaryInterviewGoals.contains b.primaryGoal) then none
  else if !(isValidArray b.audiences researchAudiences) then none
  else if !(isValidArray b.focusAreas researchFocusAreas) then none
  else some { researchName, researchAbout, deepDive, competitors, topicsToAvoid }

/-- The `data` of the `updateMany` applied to a research row. -/
def applyResearchData (r : Research) (b : ResearchPayload) (v : ValidatedResearch) :
    Research :=
  { r with
    researchName := v.researchName
    researchAbout := v.researchAbout
    primaryGoal := b.primaryGoal
    audiences := b.audiences
    focusAreas := b.focusAreas
    deepDive := v.deepDive
    competitors := v.competitors
    topicsToAvoid := v.topicsToAvoid }

/-- `PUT /researches/:id` (research.ts): identity check, user lookup,
payload validation, then `updateMany` scoped to
`{ id, userId: user.id }`; 404 when nothing matched.  Sessions are
never touched: snapshots live on the session rows. -/
def updateResearchRoute (db : DB) (clerkUserId : Option String) (rid : String)
    (body : Option ResearchPayload) : DB × Reply :=
  match clerkUserId with
  | none => (db, .unauthorized)
  | some cu =>
    match db.users.find? (fun u => u.clerkUserId == cu) with
    | none => (db, .notFound "User not found")
    | some user =>
      match body with
      | none => (db, .badRequest "Payload is required")
      | some b =>
        match validatePayload b with
        | none => (db, .badRequest "Invalid research payload")
        | some v =>
          let hit := db.researches.any (fun r => r.id == rid && r.userId == user.id)
          if !hit then (db, .notFound "Research not found")
          else
            ({ db with
               researches :=
                 db.researches.map (fun r =>
                   if r.id == rid && r.userId == user.id then applyResearchData r b v
                   else r) }, .ok)

/-! ## Owner-initiated session delete (DELETE /interview-sessions/:id) -/

/-- `DELETE /interview-sessions/:id` (sessions.ts): identity check,
then `deleteMany` scoped to `{ id, interview: { userId: user.id } }`;
the transcript rows and report of a deleted session go with it
(`ON DELETE CASCADE`). -/
def deleteSessionRoute (db : DB) (clerkUserId : Option String) (pid : Option String) :
    DB × Reply :=
  match clerkUserId with
  | none => (db, .unauthorized)
  | some cu =>
    match db.users.find? (fun u => u.clerkUserId == cu) with
    | none => (db, .notFound "User not found")
    | some user =>
      let sid := (pid.map (fun s => jsTrim s))
      if !(isPresent sid) then (db, .badRequest "Session id is required")
      else
        let owned : Session → Bool := fun s =>
          match db.interviews.find? (fun i => i.id == s.interviewId) with
          | some iv => iv.userId == user.id
          | none => false
        let doomed : Session → Bool := fun s => s.id == sid.getD "" && owned s
        if !(db.sessions.any doomed) then (db, .notFound "Session not found")
        else
          ({ db with
             sessions := db.sessions.filter (fun s => !(doomed s))
             segments :=
               db.segments.filter (fun g =>
                 !(db.sessions.any (fun s => doomed s && s.id == g.interviewSessionId)))
             reports :=
               db.reports.filter (fun r =>
                 !(db.sessions.any (fun s => doomed s && s.id == r.interviewSessionId))) },
           .ok)

/-! ## The modelled operation surface -/

/-- One request against the modelled mutation surface of the service. -/
inductive Op where
  | createSession (body : Option CreateSessionBody) (newId token : String) (now : Int)
  | publicPatch (pid xSessionTok auth queryTok : Option String) (body : PatchBody)
  | internalPatch (cfgSecret xInternalSecret auth pid : Option String)
      (body : InternalPatchBody)
  | appendSegments (pid xSessionTok auth queryTok : Option String)
      (body : Option (List SegIn)) (now : Int)
  | publicReport (pid xSessionTok auth queryTok : Option String) (body : Option ReportBody)
  | internalReport (cfgSecret xInternalSecret auth pid : Option String)
      (body : Option ReportBody)
  | updateResearch (clerkUserId : Option String) (rid : String)
      (body : Option ResearchPayload)
  | deleteSession (clerkUserId : Option String) (pid : Option String)
  | staleSweep (cfgSecret xInternalSecret auth : Option String) (q : NumVal) (now : Int)

/-- The store after one request. -/
def applyOp (db : DB) : Op → DB
  | .createSession body newId token now => (createSessionRoute db body newId token now).1
  | .publicPatch pid x a q body => (publicPatchSession db pid x a q body).1
  | .internalPatch c x a pid body => (internalPatchSession db c x a pid body).1
  | .appendSegments pid x a q body now => (postTranscriptSegments db pid x a q body now).1
  | .publicReport pid x a q body => (publicPostReport db pid x a q body).1
  | .internalReport c x a pid body => (internalPostReport db c x a pid body).1
  | .updateResearch cu rid body => (updateResearchRoute db cu rid body).1
  | .deleteSession cu pid => (deleteSessionRoute db cu pid).1
  | .staleSweep c x a q now => (internalStaleRoute db c x a q now).1

/-! ## Transport lemmas -/

/-- `find?` commutes with a map that preserves the predicate. -/
theorem find?_map_pres {α : Type} (l : List α) (h : α → α) (p : α → Bool)
    (hp : ∀ x, p (h x) = p x) : (l.map h).find? p = (l.find? p).map h := by
  have hcomp : (p ∘ h) = p := funext hp
  rw [List.find?_map, hcomp]

theorem applySessionUpdates_id (s : Session) (b : PatchBody) :
    (applySessionUpdates s b).id = s.id := rfl

theorem applySessionUpdates_sessionToken (s : Session) (b : PatchBody) :
    (applySessionUpdates s b).sessionToken = s.sessionToken := rfl

theorem applySessionUpdates_createdBy (s : Session) (b : PatchBody) :
    (applySessionUpdates s b).createdBy = s.createdBy := rfl

theorem applySessionUpdates_completed (s : Session) (b : PatchBody) :
    (applySessionUpdates s b).completed = b.completed.getD s.completed := rfl

theorem applyInternalUpdates_id (s : Session) (b : InternalPatchBody) :
    (applyInternalUpdates s b).id = s.id := rfl

theorem applyInternalUpdates_sessionToken (s : Session) (b : InternalPatchBody) :
    (applyInternalUpdates s b).sessionToken = s.sessionToken := rfl

theorem applyInternalUpdates_createdBy (s : Session) (b : InternalPatchBody) :
    (applyInternalUpdates s b).createdBy = s.createdBy := rfl

theorem applyInternalUpdates_completed (s : Session) (b : InternalPatchBody) :
    (applyInternalUpdates s b).completed = b.completed.getD s.completed := rfl

theorem patchMap_id (k : String) (g : Session → Session)
    (hgi : ∀ t, (g t).id = t.id) (s : Session) : (patchMap k g s).id = s.id := by
  unfold patchMap
  by_cases h : (s.id == k) = true <;> simp [h, hgi]

theorem patchMap_sessionToken (k : String) (g : Session → Session)
    (hgt : ∀ t, (g t).sessionToken = t.sessionToken) (s : Session) :
    (patchMap k g s).sessionToken = s.sessionToken := by
  unfold patchMap
  by_cases h : (s.id == k) = true <;> simp [h, hgt]

/-- Session resolution reads only the session table. -/
theorem resolveSession_congr_sessions (d1 d2 : DB) (hs : d1.sessions = d2.sessions)
    (pid tok : Option String) : resolveSession d1 pid tok = resolveSession d2 pid tok := by
  unfold resolveSession findByToken findById
  rw [hs]

/-- Lift a session-wise transform through a `ResolveResult`. -/
def mapOk (f : Session → Session) : ResolveResult → ResolveResult
  | .ok s => .ok (f s)
  | r => r

/-- Resolution after an id-keyed session update: the same record is
found, transformed; misses stay misses, and the token mismatch check
is unaffected because the update preserves tokens and ids. -/
theorem resolveSession_updateSessions (db : DB) (pid tok : Option String) (k : String)
    (g : Session → Session)
    (hgt : ∀ t, (g t).sessionToken = t.sessionToken)
    (hgi : ∀ t, (g t).id = t.id) :
    resolveSession { db with sessions := updateSessionById db.sessions k g } pid tok =
      mapOk (patchMap k g) (resolveSession db pid tok) := by
  have hht := patchMap_sessionToken k g hgt
  have hhi := patchMap_id k g hgi
  have hft : ∀ t : String,
      findByToken { db with sessions := updateSessionById db.sessions k g } t
        = (findByToken db t).map (patchMap k g) := by
    intro t
    unfold findByToken updateSessionById
    exact find?_map_pres _ _ _ (fun x => by rw [hht x])
  have hfi : ∀ i : String,
      findById { db with sessions := updateSessionById db.sessions k g } i
        = (findById db i).map (patchMap k g) := by
    intro i
    unfold findById updateSessionById
    exact find?_map_pres _ _ _ (fun x => by rw [hhi x])
  unfold resolveSession
  simp only [hft, hfi]
  by_cases h1 : (!(isPresent tok) && !(isPresent (pid.map (fun s => jsTrim s)))) = true
  · simp [h1, mapOk]
  · by_cases h2 : isPresent tok
    · cases hbt : findByToken db (tok.getD "") with
      | some s => simp [h1, h2, hbt, mapOk]
      | none =>
        by_cases h3 : isPresent (pid.map (fun s => jsTrim s))
        · cases hbi : findById db ((pid.map (fun s => jsTrim s)).getD "") with
          | none => simp [h1, h2, h3, hbt, hbi, mapOk]
          | some s =>
            by_cases h4 : (s.sessionToken == tok.getD "") = true
            · simp [h1, h2, h3, h4, hbt, hbi, mapOk, hht s]
            · simp [h1, h2, h3, h4, hbt, hbi, mapOk, hht s]
        · simp [h1, h2, h3, hbt, mapOk]
    · by_cases h5 : isPresent (pid.map (fun s => jsTrim s))
      · cases hbi : findById db ((pid.map (fun s => jsTrim s)).getD "") with
        | none => simp [h1, h2, h5, hbi, mapOk]
        | some s => simp [h1, h2, h5, hbi, mapOk, hht s]
      · simp [h1, h2, h5, mapOk]

/-- The counter of the targeted user after the increment write. -/
theorem find?_incrementCompletedCount (l : List User) (uid : String) :
    ((incrementCompletedCount l uid).find? (fun u => u.id == uid)).map
        (fun u => u.completedSessionsCount)
      = ((l.find? (fun u => u.id == uid)).map (fun u => u.completedSessionsCount)).map
          (fun c => c + 1) := by
  unfold incrementCompletedCount
  rw [find?_map_pres _ _ _ (fun u => by by_cases h : (u.id == uid) = true <;> simp [h])]
  cases hf : l.find? (fun u => u.id == uid) with
  | none => rfl
  | some u =>
    have hu : u.id = uid := by simpa using List.find?_some hf
    simp [hu]

/-- The public patch with a resolved session: reply and output state. -/
theorem publicPatchSession_ok (db : DB) (pid x a q : Option String) (b : PatchBody)
    (s : Session) (hres : resolveSessionRaw db pid x a q = .ok s) :
    publicPatchSession db pid x a q b =
      (let db1 : DB :=
        { db with
          sessions := updateSessionById db.sessions s.id (fun t => applySessionUpdates t b) }
       if shouldIncrementCompleted b.completed s then
         ({ db1 with users := incrementCompletedCount db1.users s.createdBy }, .ok)
       else (db1, .ok)) := by
  unfold publicPatchSession
  rw [hres]

/-- The sessions table after a resolved public patch. -/
theorem publicPatchSession_sessions (db : DB) (pid x a q : Option String) (b : PatchBody)
    (s : Session) (hres : resolveSessionRaw db pid x a q = .ok s) :
    (publicPatchSession db pid x a q b).1.sessions =
      updateSessionById db.sessions s.id (fun t => applySessionUpdates t b) := by
  rw [publicPatchSession_ok db pid x a q b s hres]
  by_cases h : shouldIncrementCompleted b.completed s <;> simp [h]

/-- The users table after a resolved public patch whose guard is off. -/
theorem publicPatchSession_users_noInc (db : DB) (pid x a q : Option String)
    (b : PatchBody) (s : Session) (hres : resolveSessionRaw db pid x a q = .ok s)
    (hni : shouldIncrementCompleted b.completed s = false) :
    (publicPatchSession db pid x a q b).1.users = db.users := by
  rw [publicPatchSession_ok db pid x a q b s hres]
  simp [hni]

/-- The users table after a resolved public patch whose guard fires. -/
theorem publicPatchSession_users_inc (db : DB) (pid x a q : Option String)
    (b : PatchBody) (s : Session) (hres : resolveSessionRaw db pid x a q = .ok s)
    (hi : shouldIncrementCompleted b.completed s = true) :
    (publicPatchSession db pid x a q b).1.users =
      incrementCompletedCount db.users s.createdBy := by
  rw [publicPatchSession_ok db pid x a q b s hres]
  simp [hi]

/-- Applying the same partial update twice is the same as once. -/
theorem applySessionUpdates_idem (s : Session) (b : PatchBody) :
    applySessionUpdates (applySessionUpdates s b) b = applySessionUpdates s b := by
  unfold applySessionUpdates
  cases b with
  | mk st en co la cp =>
    cases st <;> cases en <;> cases co <;> cases la <;> cases cp <;> rfl

/-- After a patch carrying a `completed` field has been applied, the
increment guard can never fire again for the same request. -/
theorem shouldIncrement_after_apply (s : Session) (b : PatchBody) :
    shouldIncrementCompleted b.completed (applySessionUpdates s b) = false := by
  unfold shouldIncrementCompleted
  rw [applySessionUpdates_completed]
  cases hb : b.completed with
  | none => rfl
  | some c => cases c <;> simp

/-- Resolution with the same raw credentials after a resolved public
patch finds the updated session. -/
theorem resolveRaw_after_publicPatch (db : DB) (pid x a q : Option String)
    (b : PatchBody) (s : Session) (hres : resolveSessionRaw db pid x a q = .ok s) :
    resolveSessionRaw (publicPatchSession db pid x a q b).1 pid x a q =
      .ok (applySessionUpdates s b) := by
  unfold resolveSessionRaw at *
  have hsess := publicPatchSession_sessions db pid x a q b s hres
  rw [resolveSession_congr_sessions (publicPatchSession db pid x a q b).1
        { db with
          sessions := updateSessionById db.sessions s.id (fun t => applySessionUpdates t b) }
        (by rw [hsess]) pid (getSessionToken x a q)]
  rw [resolveSession_updateSessions db pid (getSessionToken x a q) s.id
        (fun t => applySessionUpdates t b)
        (fun t => applySessionUpdates_sessionToken t b)
        (fun t => applySessionUpdates_id t b)]
  rw [hres]
  unfold mapOk patchMap
  simp

/-- Repeating one public patch request: every application after the
first leaves the users table (hence every aggregate counter) unchanged. -/
theorem iteratePublicPatch_users_stable (db : DB) (pid x a q : Option String)
    (b : PatchBody) (s : Session) (hres : resolveSessionRaw db pid x a q = .ok s) :
    ∀ n : Nat,
      (iteratePublicPatch pid x a q b (n + 1) db).users =
        (iteratePublicPatch pid x a q b 1 db).users := by
  have key : ∀ n : Nat,
      resolveSessionRaw (iteratePublicPatch pid x a q b (n + 1) db) pid x a q =
          .ok (applySessionUpdates s b) ∧
        (iteratePublicPatch pid x a q b (n + 1) db).users =
          (iteratePublicPatch pid x a q b 1 db).users := by
    intro n
    induction n with
    | zero =>
      refine ⟨?_, rfl⟩
      exact resolveRaw_after_publicPatch db pid x a q b s hres
    | succ m ih =>
      obtain ⟨hres1, husers⟩ := ih
      refine ⟨?_, ?_⟩
      · have h2 := resolveRaw_after_publicPatch _ pid x a q b _ hres1
        rw [applySessionUpdates_idem] at h2
        exact h2
      · have h3 := publicPatchSession_users_noInc _ pid x a q b _ hres1
          (shouldIncrement_after_apply s b)
        calc (iteratePublicPatch pid x a q b (m + 1 + 1) db).users
            = (iteratePublicPatch pid x a q b (m + 1) db).users := h3
          _ = (iteratePublicPatch pid x a q b 1 db).users := husers
  intro n
  exact (key n).2

/-! ### Internal patch path -/

/-- `findById` after an id-keyed session update. -/
theorem findById_updateSessions (db : DB) (k : String) (g : Session → Session)
    (hgi : ∀ t, (g t).id = t.id) (i : String) :
    findById { db with sessions := updateSessionById db.sessions k g } i =
      (findById db i).map (patchMap k g) := by
  unfold findById updateSessionById
  exact find?_map_pres _ _ _ (fun x => by rw [patchMap_id k g hgi x])

/-- The internal patch with an authorized caller and an existing
session: reply and output state. -/
theorem internalPatchSession_ok (db : DB) (cfg xs ia pid : Option String)
    (b : InternalPatchBody) (s : Session)
    (hsec : checkInternalSecret cfg xs ia = .ok)
    (hid : isPresent (pid.map (fun t => jsTrim t)) = true)
    (hfind : findById db ((pid.map (fun t => jsTrim t)).getD "") = some s) :
    internalPatchSession db cfg xs ia pid b =
      (let db1 : DB :=
        { db with
          sessions :=
            updateSessionById db.sessions ((pid.map (fun t => jsTrim t)).getD "")
              (fun t => applyInternalUpdates t b) }
       if shouldIncrementCompleted b.completed s then
         ({ db1 with users := incrementCompletedCount db1.users s.createdBy }, .ok)
       else (db1, .ok)) := by
  unfold internalPatchSession
  rw [hsec]
  simp only [hid, hfind, Bool.not_true, Bool.false_eq_true, if_false]

/-- The sessions table after an authorized internal patch. -/
theorem internalPatchSession_sessions (db : DB) (cfg xs ia pid : Option String)
    (b : InternalPatchBody) (s : Session)
    (hsec : checkInternalSecret cfg xs ia = .ok)
    (hid : isPresent (pid.map (fun t => jsTrim t)) = true)
    (hfind : findById db ((pid.map (fun t => jsTrim t)).getD "") = some s) :
    (internalPatchSession db cfg xs ia pid b).1.sessions =
      updateSessionById db.sessions ((pid.map (fun t => jsTrim t)).getD "")
        (fun t => applyInternalUpdates t b) := by
  rw [internalPatchSession_ok db cfg xs ia pid b s hsec hid hfind]
  by_cases h : shouldIncrementCompleted b.completed s <;> simp [h]

/-- The users table after an authorized internal patch with the guard off. -/
theorem internalPatchSession_users_noInc (db : DB) (cfg xs ia pid : Option String)
    (b : InternalPatchBody) (s : Session)
    (hsec : checkInternalSecret cfg xs ia = .ok)
    (hid : isPresent (pid.map (fun t => jsTrim t)) = true)
    (hfind : findById db ((pid.map (fun t => jsTrim t)).getD "") = some s)
    (hni : shouldIncrementCompleted b.completed s = false) :
    (internalPatchSession db cfg xs ia pid b).1.users = db.users := by
  rw [internalPatchSession_ok db cfg xs ia pid b s hsec hid hfind]
  simp [hni]

/-- The users table after an authorized internal patch with the guard on. -/
theorem internalPatchSession_users_inc (db : DB) (cfg xs ia pid : Option String)
    (b : InternalPatchBody) (s : Session)
    (hsec : checkInternalSecret cfg xs ia = .ok)
    (hid : isPresent (pid.map (fun t => jsTrim t)) = true)
    (hfind : findById db ((pid.map (fun t => jsTrim t)).getD "") = some s)
    (hi : shouldIncrementCompleted b.completed s = true) :
    (internalPatchSession db cfg xs ia pid b).1.users =
      incrementCompletedCount db.users s.createdBy := by
  rw [internalPatchSession_ok db cfg xs ia pid b s hsec hid hfind]
  simp [hi]

/-- Applying the same internal partial update twice is the same as once. -/
theorem applyInternalUpdates_idem (s : Session) (b : InternalPatchBody) :
    applyInternalUpdates (applyInternalUpdates s b) b = applyInternalUpdates s b := by
  unfold applyInternalUpdates
  cases b with
  | mk st en co => cases st <;> cases en <;> cases co <;> rfl

/-- The internal analogue of `shouldIncrement_after_apply`. -/
theorem shouldIncrement_after_applyInternal (s : Session) (b : InternalPatchBody) :
    shouldIncrementCompleted b.completed (applyInternalUpdates s b) = false := by
  unfold shouldIncrementCompleted
  rw [applyInternalUpdates_completed]
  cases hb : b.completed with
  | none => rfl
  | some c => cases c <;> simp

/-- `findById` with the same id after an authorized internal patch
finds the updated session. -/
theorem findById_after_internalPatch (db : DB) (cfg xs ia pid : Option String)
    (b : InternalPatchBody) (s : Session)
    (hsec : checkInternalSecret cfg xs ia = .ok)
    (hid : isPresent (pid.map (fun t => jsTrim t)) = true)
    (hfind : findById db ((pid.map (fun t => jsTrim t)).getD "") = some s) :
    findById (internalPatchSession db cfg xs ia pid b).1
        ((pid.map (fun t => jsTrim t)).getD "") =
      some (applyInternalUpdates s b) := by
  have hsess := internalPatchSession_sessions db cfg xs ia pid b s hsec hid hfind
  have hcongr :
      findById (internalPatchSession db cfg xs ia pid b).1
          ((pid.map (fun t => jsTrim t)).getD "") =
        findById
          { db with
            sessions :=
              updateSessionById db.sessions ((pid.map (fun t => jsTrim t)).getD "")
                (fun t => applyInternalUpdates t b) }
          ((pid.map (fun t => jsTrim t)).getD "") := by
    unfold findById
    rw [hsess]
  have hfind2 :
      db.sessions.find? (fun x => x.id == (pid.map (fun t => jsTrim t)).getD "") = some s :=
    hfind
  have hsid : (s.id == (pid.map (fun t => jsTrim t)).getD "") = true := by
    have h0 := List.find?_some hfind2
    simpa using h0
  rw [hcongr, findById_updateSessions db _ _ (fun t => applyInternalUpdates_id t b), hfind]
  simp [patchMap, hsid]

/-- Repeating one internal patch request: every application after the
first leaves the users table unchanged. -/
theorem iterateInternalPatch_users_stable (db : DB) (cfg xs ia pid : Option String)
    (b : InternalPatchBody) (s : Session)
    (hsec : checkInternalSecret cfg xs ia = .ok)
    (hid : isPresent (pid.map (fun t => jsTrim t)) = true)
    (hfind : findById db ((pid.map (fun t => jsTrim t)).getD "") = some s) :
    ∀ n : Nat,
      (iterateInternalPatch cfg xs ia pid b (n + 1) db).users =
        (iterateInternalPatch cfg xs ia pid b 1 db).users := by
  have key : ∀ n : Nat,
      findById (iterateInternalPatch cfg xs ia pid b (n + 1) db)
          ((pid.map (fun t => jsTrim t)).getD "") =
          some (applyInternalUpdates s b) ∧
        (iterateInternalPatch cfg xs ia pid b (n + 1) db).users =
          (iterateInternalPatch cfg xs ia pid b 1 db).users := by
    intro n
    induction n with
    | zero =>
      refine ⟨?_, rfl⟩
      exact findById_after_internalPatch db cfg xs ia pid b s hsec hid hfind
    | succ m ih =>
      obtain ⟨hfind1, husers⟩ := ih
      refine ⟨?_, ?_⟩
      · have h2 := findById_after_internalPatch _ cfg xs ia pid b _ hsec hid hfind1
        rw [applyInternalUpdates_idem] at h2
        exact h2
      · have h3 := internalPatchSession_users_noInc _ cfg xs ia pid b _ hsec hid hfind1
          (shouldIncrement_after_applyInternal s b)
        calc (iterateInternalPatch cfg xs ia pid b (m + 1 + 1) db).users
            = (iterateInternalPatch cfg xs ia pid b (m + 1) db).users := h3
          _ = (iterateInternalPatch cfg xs ia pid b 1 db).users := husers
  intro n
  exact (key n).2

/-! ## Concrete fixtures used by witnesses and counterexamples -/

/-- A frozen company snapshot used by the fixtures. -/
def exGlobalSnap : GlobalSnapshot :=
  { companyName := "Acme", shortAbout := "tools", blockedTopics := ["pricing"],
    interviewLanguage := "English", primaryCustomerType := "Businesses" }

/-- A frozen research snapshot used by the fixtures. -/
def exResearchSnap : ResearchSnapshot :=
  { researchName := "Churn study", researchAbout := "", primaryGoal := "Discovery Research",
    audiences := ["Existing Customers"], focusAreas := ["Overall experience"],
    deepDive := "", competitors := "", topicsToAvoid := "" }

/-- An active, not-yet-completed session. -/
def baseSession : Session :=
  { id := "s1", researchId := "r1", interviewId := "i1", createdBy := "u1",
    status := "active", mode := "text", participantName := "Alex",
    participantEmail := none, sessionToken := "tok1",
    promptVersionId := "interviewer_v1", personaId := "professional",
    globalContextSnapshot := exGlobalSnap, researchContextSnapshot := exResearchSnap,
    completed := false, startedAt := 0, endedAt := none, lastActivityAt := 0,
    compiledPromptHash := none }

/-- An ended session (status is not "active"). -/
def endedSession : Session :=
  { baseSession with id := "s2", sessionToken := "tok2", status := "ended" }

/-- A session already marked completed. -/
def completedSession : Session :=
  { baseSession with id := "s3", sessionToken := "tok3", completed := true }

/-- The owner of the fixture sessions, counter at zero. -/
def baseUser : User :=
  { id := "u1", clerkUserId := "ck1", completedSessionsCount := 0,
    companyName := some "Acme", shortAbout := some "tools", blockedTopics := ["pricing"],
    interviewLanguage := "English", primaryCustomerType := some "Businesses" }

/-- The fixture store. -/
def baseDB : DB :=
  { users := [baseUser], researches := [], interviews := [],
    sessions := [baseSession, endedSession, completedSession],
    segments := [], reports := [] }

/-- Session X of the dual-credential scenario. -/
def sessionX : Session := { baseSession with id := "sx", sessionToken := "tx" }

/-- Session Y of the dual-credential scenario. -/
def sessionY : Session := { baseSession with id := "sy", sessionToken := "ty" }

/-- A store holding two distinct sessions X and Y. -/
def dbXY : DB := { baseDB with sessions := [sessionX, sessionY] }

/-! ## Claims -/

/-- C3: whenever the supplied token matches no stored session, an id is
supplied and resolves to an existing session, and that session's stored
`sessionToken` differs from the supplied token, `resolveSession`
replies 403 Forbidden and returns no session data. -/
theorem c3_token_mismatch_forbidden (db : DB) (pid : Option String) (t i : String)
    (s : Session)
    (ht : (t == "") = false)
    (hmiss : findByToken db t = none)
    (hpid : pid.map (fun x => jsTrim x) = some i)
    (hi : (i == "") = false)
    (hfind : findById db i = some s)
    (hne : (s.sessionToken == t) = false) :
    resolveSession db pid (some t) = .forbidden := by
  unfold resolveSession
  simp [isPresent, ht, hpid, hi, hmiss, hfind, hne]

/-- Witness for C3: a caller holding an unrelated token "tz" and
guessing session Y's id is rejected with 403. -/
theorem c3_token_mismatch_forbidden_witness :
    resolveSession dbXY (some "sy") (some "tz") = .forbidden :=
  c3_token_mismatch_forbidden dbXY (some "sy") "tz" "sy" sessionY
    (by decide) (by decide) (by decide) (by decide) (by decide) (by decide)

/-- C4 counterexample: with session X's token and session Y's id, the
code returns X successfully (the token hit short-circuits before the id
is ever consulted); the call does not fail with Forbidden as claimed. -/
theorem c4_counterexample :
    sessionX.sessionToken = "tx" ∧ sessionY.id = "sy" ∧ sessionX.id ≠ "sy" ∧
    resolveSession dbXY (some "sy") (some "tx") = .ok sessionX := by
  refine ⟨rfl, rfl, by decide, by decide⟩

/-- C4 amended: when the supplied token matches session X, the resolver
returns X and ignores the id entirely; Forbidden arises only on the
token-miss fallback path (see C3). -/
theorem c4_token_precedence (db : DB) (pid : Option String) (t : String) (X : Session)
    (ht : (t == "") = false)
    (hhit : findByToken db t = some X) :
    resolveSession db pid (some t) = .ok X := by
  unfold resolveSession
  simp [isPresent, ht, hhit]

/-- Witness for the amended C4: X's token plus Y's id resolves to X. -/
theorem c4_token_precedence_witness :
    resolveSession dbXY (some "sy") (some "tx") = .ok sessionX :=
  c4_token_precedence dbXY (some "sy") "tx" sessionX (by decide) (by decide)

/-- C9: a whitespace-only supplied token is normalized to an absent
token, and the request then behaves exactly like the id-only path —
in particular an id that matches a session resolves successfully with
no token comparison. -/
theorem c9_blank_token_is_absent (db : DB) (pid : Option String) (ws i : String)
    (s : Session)
    (hws : jsTrim ws = "") :
    getSessionToken none none (some ws) = none ∧
    resolveSessionRaw db pid none none (some ws) = resolveSession db pid none ∧
    (pid.map (fun x => jsTrim x) = some i → (i == "") = false → findById db i = some s →
      resolveSessionRaw db pid none none (some ws) = .ok s) := by
  have hget : getSessionToken none none (some ws) = none := by
    simp [getSessionToken, hws]
  refine ⟨hget, by unfold resolveSessionRaw; rw [hget], ?_⟩
  intro hpid hi hfind
  unfold resolveSessionRaw
  rw [hget]
  unfold resolveSession
  simp [isPresent, hpid, hi, hfind]

/-- Witness for C9: the token "   " with session s1's id resolves s1. -/
theorem c9_blank_token_is_absent_witness :
    getSessionToken none none (some "   ") = none ∧
    resolveSessionRaw baseDB (some "s1") none none (some "   ") = .ok baseSession := by
  have h := c9_blank_token_is_absent baseDB (some "s1") "   " "s1" baseSession (by decide)
  exact ⟨h.1, h.2.2 (by decide) (by decide) (by decide)⟩

/-- The effective staleness window as the claim words it, for
comparison with the code: the caller's value clamped to [5, 60],
defaulting to 30 only when the parameter is absent. -/
def specEffectiveMinutes : Option Int → Int
  | none => 30
  | some v => min 60 (max 5 v)

/-- C8 counterexample: for the caller value `minutes=0` the claim's
clamp yields 5 minutes, which at `now = 600000` (10 minutes) would
select the idle fixture session; the code's `Number(...) || 30` folds 0
into the 30-minute default and selects nothing. -/
theorem c8_counterexample :
    baseSession.status = "active" ∧
    baseSession.lastActivityAt = 0 ∧
    effectiveMinutes (.val 0) = 30 ∧
    specEffectiveMinutes (some 0) = 5 ∧
    baseSession.lastActivityAt < 600000 - specEffectiveMinutes (some 0) * 60 * 1000 ∧
    staleSessions baseDB (.val 0) 600000 = [] := by
  refine ⟨rfl, rfl, by decide, by decide, by decide, by decide⟩

/-- C8 amended: the effective window is 30 minutes when the parameter
is absent, non-numeric, or zero, and otherwise the caller's value
clamped to [5, 60]; the sweep returns exactly the sessions with status
"active" whose `lastActivityAt` is older than `now` minus that window,
and performs no store mutation. -/
theorem c8_stale_sweep (db : DB) (q : NumVal) (now : Int) (cfg xs ia : Option String) :
    effectiveMinutes .nan = 30 ∧
    effectiveMinutes (.val 0) = 30 ∧
    (∀ n : Int, n ≠ 0 → effectiveMinutes (.val n) = min 60 (max 5 n)) ∧
    (∀ s : Session,
      s ∈ staleSessions db q now ↔
        s ∈ db.sessions ∧ s.status = "active" ∧
          s.lastActivityAt < now - effectiveMinutes q * 60 * 1000) ∧
    (internalStaleRoute db cfg xs ia q now).1 = db ∧
    (checkInternalSecret cfg xs ia = .ok →
      (internalStaleRoute db cfg xs ia q now).2 = .ok (staleSessions db q now)) := by
  refine ⟨rfl, rfl, ?_, ?_, ?_, ?_⟩
  · intro n hn
    simp [effectiveMinutes, minutesOrDefault, hn]
  · intro s
    unfold staleSessions
    simp [List.mem_filter, and_assoc]
  · unfold internalStaleRoute
    cases hsec : checkInternalSecret cfg xs ia <;> rfl
  · intro hsec
    unfold internalStaleRoute
    rw [hsec]

/-- Witness for the amended C8: `minutes=7` is used as supplied, the
route mutates nothing, and the idle fixture session is selected at a
10-minute horizon. -/
theorem c8_stale_sweep_witness :
    effectiveMinutes (.val 7) = min 60 (max 5 7) ∧
    (internalStaleRoute baseDB (some "sec") (some "sec") none (.val 7) 600000).1 = baseDB ∧
    (baseSession ∈ staleSessions baseDB (.val 7) 600000 ↔
      baseSession ∈ baseDB.sessions ∧ baseSession.status = "active" ∧
        baseSession.lastActivityAt < 600000 - effectiveMinutes (.val 7) * 60 * 1000) := by
  have h := c8_stale_sweep baseDB (.val 7) 600000 (some "sec") (some "sec") none
  exact ⟨h.2.2.1 7 (by decide), h.2.2.2.2.1, h.2.2.2.1 baseSession⟩

/-- A fixture input segment carrying explicit values. -/
def exSegIn : SegIn :=
  { role := some "user", text := some "hello", tsStart := .num 1, tsEnd := .undef,
    metaJson := .undef }

/-- A fixture input segment with absent role/text and non-numeric
timestamp offsets. -/
def segNoRole : SegIn :=
  { role := none, text := none, tsStart := .str "x", tsEnd := .null, metaJson := .undef }

/-- C6: a transcript append on a resolved session whose status is not
exactly "active" fails with the invalid-state reply and the store —
segments and `lastActivityAt` included — is returned unchanged; an
empty or non-array batch is likewise rejected with the request intact,
so both checks precede any mutation. -/
theorem c6_append_requires_active (db : DB) (pid x a q : Option String)
    (body : Option (List SegIn)) (now : Int) (s : Session)
    (hres : resolveSessionRaw db pid x a q = .ok s) :
    (s.status ≠ "active" →
      postTranscriptSegments db pid x a q body now =
        (db, .badRequest "Session is not active")) ∧
    (s.status = "active" → body = none ∨ body = some [] →
      postTranscriptSegments db pid x a q body now =
        (db, .badRequest "segments array is required")) := by
  constructor
  · intro hstat
    unfold postTranscriptSegments
    rw [hres]
    have hb : (s.status == "active") = false := by simpa using hstat
    simp [hb]
  · intro hstat hbody
    unfold postTranscriptSegments
    rw [hres]
    have hb : (s.status == "active") = true := by simpa using hstat
    rcases hbody with h | h <;> subst h <;> simp [hb]

/-- Witness for C6: appending to the ended fixture session changes
nothing and reports the invalid state. -/
theorem c6_append_requires_active_witness :
    endedSession.status = "ended" ∧
    postTranscriptSegments baseDB (some "s2") none none (some "tok2")
        (some [exSegIn]) 5 = (baseDB, .badRequest "Session is not active") :=
  ⟨rfl,
    (c6_append_requires_active baseDB (some "s2") none none (some "tok2")
        (some [exSegIn]) 5 endedSession (by decide)).1 (by decide)⟩

/-- C10: an accepted batch is stored as exactly the normalized rows
appended to the segment table, where a segment with no role is stored
with role "user", a supplied role is truncated to its first 32
characters, absent text becomes "", and a non-numeric `tsStart`/`tsEnd`
is stored as absent. -/
theorem c10_segment_defaults (db : DB) (pid x a q : Option String) (segs : List SegIn)
    (now : Int) (s : Session)
    (hres : resolveSessionRaw db pid x a q = .ok s)
    (hact : s.status = "active")
    (hne : segs.isEmpty = false) :
    (postTranscriptSegments db pid x a q (some segs) now).1.segments =
        db.segments ++ storeSegments s.id db.segments.length segs ∧
    (∀ g : SegIn, ∀ seq : Nat,
      (g.role = none → (toStoredSegment s.id seq g).role = "user") ∧
      (∀ r, g.role = some r → (toStoredSegment s.id seq g).role = jsSlice 32 r) ∧
      (g.text = none → (toStoredSegment s.id seq g).text = "") ∧
      (∀ t, g.text = some t → (toStoredSegment s.id seq g).text = t) ∧
      (isNumberVal g.tsStart = false → (toStoredSegment s.id seq g).tsStart = none) ∧
      (isNumberVal g.tsEnd = false → (toStoredSegment s.id seq g).tsEnd = none)) := by
  constructor
  · unfold postTranscriptSegments
    rw [hres]
    have hb : (s.status == "active") = true := by simpa using hact
    simp [hb, hne]
  · intro g seq
    refine ⟨?_, ?_, ?_, ?_, ?_, ?_⟩
    · intro h
      simp only [toStoredSegment, h, Option.getD_none]
      decide
    · intro r h
      simp [toStoredSegment, h]
    · intro h
      simp [toStoredSegment, h]
    · intro t h
      simp [toStoredSegment, h]
    · intro h
      cases hts : g.tsStart <;> simp [toStoredSegment, hts] <;>
        simp [isNumberVal, hts] at h
    · intro h
      cases hts : g.tsEnd <;> simp [toStoredSegment, hts] <;>
        simp [isNumberVal, hts] at h

/-- Witness for C10: one segment with absent role/text and a string
`tsStart` is stored with role "user", empty text, and no offsets. -/
theorem c10_segment_defaults_witness :
    (postTranscriptSegments baseDB (some "s1") none none (some "tok1")
        (some [segNoRole]) 99).1.segments =
      baseDB.segments ++ storeSegments baseSession.id baseDB.segments.length [segNoRole] ∧
    (toStoredSegment baseSession.id 0 segNoRole).role = "user" ∧
    (toStoredSegment baseSession.id 0 segNoRole).text = "" ∧
    (toStoredSegment baseSession.id 0 segNoRole).tsStart = none ∧
    (toStoredSegment baseSession.id 0 segNoRole).tsEnd = none := by
  have h := c10_segment_defaults baseDB (some "s1") none none (some "tok1")
    [segNoRole] 99 baseSession (by decide) rfl rfl
  have hg := h.2 segNoRole 0
  exact ⟨h.1, hg.1 rfl, hg.2.2.1 rfl, hg.2.2.2.2.1 (by decide), hg.2.2.2.2.2 (by decide)⟩

/-- Replacing the (at most one) row with the target key leaves exactly
the replacement among the rows with that key. -/
theorem filter_map_replace (rs : List Report) (r : Report)
    (hany : rs.any (fun x => x.interviewSessionId == r.interviewSessionId) = true)
    (hlen : (rs.filter (fun x => x.interviewSessionId == r.interviewSessionId)).length ≤ 1) :
    (rs.map (fun x => if x.interviewSessionId == r.interviewSessionId then r else x)).filter
        (fun x => x.interviewSessionId == r.interviewSessionId) = [r] := by
  induction rs with
  | nil => simp at hany
  | cons hd tl ih =>
    by_cases hp : (hd.interviewSessionId == r.interviewSessionId) = true
    · have hcons :
          (hd :: tl).filter (fun x => x.interviewSessionId == r.interviewSessionId) =
            hd :: tl.filter (fun x => x.interviewSessionId == r.interviewSessionId) :=
        List.filter_cons_of_pos hp
      rw [hcons] at hlen
      have htl : tl.filter (fun x => x.interviewSessionId == r.interviewSessionId) = [] := by
        cases hft : tl.filter (fun x => x.interviewSessionId == r.interviewSessionId) with
        | nil => rfl
        | cons a l =>
          rw [hft] at hlen
          simp at hlen
      have hnone := List.filter_eq_nil_iff.mp htl
      have hmapnil :
          (tl.map (fun x =>
              if x.interviewSessionId == r.interviewSessionId then r else x)).filter
            (fun x => x.interviewSessionId == r.interviewSessionId) = [] := by
        apply List.filter_eq_nil_iff.mpr
        intro a ha
        obtain ⟨x, hx, hfx⟩ := List.mem_map.mp ha
        have hnx := hnone x hx
        rw [if_neg hnx] at hfx
        rw [← hfx]
        exact hnx
      simp only [List.map_cons, if_pos hp]
      rw [List.filter_cons_of_pos (by simp), hmapnil]
    · have hanytl : tl.any (fun x => x.interviewSessionId == r.interviewSessionId) = true := by
        simp only [List.any_cons] at hany
        rcases Bool.or_eq_true_iff.mp hany with h | h
        · exact absurd h hp
        · exact h
      have hfneg :
          (hd :: tl).filter (fun x => x.interviewSessionId == r.interviewSessionId) =
            tl.filter (fun x => x.interviewSessionId == r.interviewSessionId) :=
        List.filter_cons_of_neg hp
      have hlentl :
          (tl.filter (fun x => x.interviewSessionId == r.interviewSessionId)).length ≤ 1 := by
        rw [hfneg] at hlen
        exact hlen
      simp only [List.map_cons, if_neg hp]
      have hfneg2 :
          (hd :: tl.map (fun x =>
              if x.interviewSessionId == r.interviewSessionId then r else x)).filter
            (fun x => x.interviewSessionId == r.interviewSessionId) =
            (tl.map (fun x =>
              if x.interviewSessionId == r.interviewSessionId then r else x)).filter
              (fun x => x.interviewSessionId == r.interviewSessionId) :=
        List.filter_cons_of_neg hp
      rw [hfneg2]
      exact ih hanytl hlentl

/-- The upsert leaves exactly the written row under its key, whether it
replaced an existing row or inserted a fresh one. -/
theorem filter_upsertReport (rs : List Report) (r : Report)
    (hlen : (rs.filter (fun x => x.interviewSessionId == r.interviewSessionId)).length ≤ 1) :
    (upsertReport rs r).filter
        (fun x => x.interviewSessionId == r.interviewSessionId) = [r] := by
  unfold upsertReport
  by_cases hany : rs.any (fun x => x.interviewSessionId == r.interviewSessionId) = true
  · rw [if_pos hany]
    exact filter_map_replace rs r hany hlen
  · rw [if_neg hany]
    have hnone : ∀ x ∈ rs, ¬ (x.interviewSessionId == r.interviewSessionId) = true := by
      intro x hx hcontra
      exact hany (List.any_eq_true.mpr ⟨x, hx, hcontra⟩)
    rw [List.filter_append, List.filter_eq_nil_iff.mpr hnone]
    simp

/-- The key of the row a report body writes. -/
theorem reportData_key (i : String) (b : ReportBody) :
    (reportData i b).interviewSessionId = i := rfl

/-- An authorized, valid internal report post is exactly the upsert. -/
theorem internalPostReport_ok (db : DB) (cfg xs ia pid : Option String)
    (b : ReportBody) (i : String)
    (hsec : checkInternalSecret cfg xs ia = .ok)
    (hpid : pid.map (fun t => jsTrim t) = some i)
    (hi : (i == "") = false)
    (hs : isStringVal b.summary = true) :
    internalPostReport db cfg xs ia pid (some b) =
      ({ db with reports := upsertReport db.reports (reportData i b) }, .ok) := by
  unfold internalPostReport
  rw [hsec]
  simp [hpid, isPresent, hi, hs]

/-- C7: two successive report upserts for the same session leave
exactly one report row for that session, carrying the second payload
only (summary, quotes, pains, opportunities, review and completion flag
as derived by `reportData`); a body whose summary is missing or not a
string is rejected before any write. -/
theorem c7_report_upsert_full_replace (db : DB) (cfg xs ia pid : Option String)
    (b1 b2 : ReportBody) (i : String)
    (hsec : checkInternalSecret cfg xs ia = .ok)
    (hpid : pid.map (fun t => jsTrim t) = some i)
    (hi : (i == "") = false)
    (h1 : isStringVal b1.summary = true)
    (h2 : isStringVal b2.summary = true)
    (hkey : (db.reports.filter (fun x => x.interviewSessionId == i)).length ≤ 1) :
    ((internalPostReport (internalPostReport db cfg xs ia pid (some b1)).1
          cfg xs ia pid (some b2)).1.reports.filter
        (fun x => x.interviewSessionId == i)) = [reportData i b2] ∧
    (∀ b0 : ReportBody, isStringVal b0.summary = false →
      internalPostReport db cfg xs ia pid (some b0) =
        (db, .badRequest "summary required")) ∧
    internalPostReport db cfg xs ia pid none = (db, .badRequest "summary required") := by
  refine ⟨?_, ?_, ?_⟩
  · rw [internalPostReport_ok db cfg xs ia pid b1 i hsec hpid hi h1]
    rw [internalPostReport_ok _ cfg xs ia pid b2 i hsec hpid hi h2]
    have hfirst := filter_upsertReport db.reports (reportData i b1) hkey
    simp only [reportData_key] at hfirst
    have hlen1 :
        ((upsertReport db.reports (reportData i b1)).filter
          (fun x => x.interviewSessionId == i)).length ≤ 1 := by
      rw [hfirst]
      exact Nat.le_refl 1
    have hsecond := filter_upsertReport (upsertReport db.reports (reportData i b1))
      (reportData i b2) (by simpa [reportData_key] using hlen1)
    simpa [reportData_key] using hsecond
  · intro b0 h0
    unfold internalPostReport
    rw [hsec]
    simp [hpid, isPresent, hi, h0]
  · unfold internalPostReport
    rw [hsec]
    simp [hpid, isPresent, hi]

/-- First fixture report payload. -/
def rb1 : ReportBody :=
  { summary := .str "first", keyQuotesJson := .undef, painsJson := .null,
    opportunitiesJson := .arr [.str "a"], reviewJson := .undef, interviewCompleted := none }

/-- Second fixture report payload, differing in every field. -/
def rb2 : ReportBody :=
  { summary := .str "second", keyQuotesJson := .arr [.str "q"], painsJson := .undef,
    opportunitiesJson := .undef, reviewJson := .arr [], interviewCompleted := some true }

/-- Witness for C7: posting `rb1` then `rb2` for session s1 leaves
exactly the `rb2`-derived row. -/
theorem c7_report_upsert_full_replace_witness :
    ((internalPostReport (internalPostReport baseDB (some "sec") (some "sec") none
            (some "s1") (some rb1)).1
          (some "sec") (some "sec") none (some "s1") (some rb2)).1.reports.filter
        (fun x => x.interviewSessionId == "s1")) = [reportData "s1" rb2] :=
  (c7_report_upsert_full_replace baseDB (some "sec") (some "sec") none (some "s1")
      rb1 rb2 "s1" (by decide) (by decide) (by decide) (by decide) (by decide)
      (by decide)).1

/-- A patch body that explicitly resets `completed` to false. -/
def pbFalse : PatchBody :=
  { status := none, endedAt := none, completed := some false,
    lastActivityAt := none, compiledPromptHash := none }

/-- A patch body touching only `status`. -/
def pbStatus : PatchBody :=
  { status := some "ended", endedAt := none, completed := none,
    lastActivityAt := none, compiledPromptHash := none }

/-- C5 counterexample: the public patch accepts `completed=false` on a
session whose stored flag is true and stores false — the flag is not
one-way. -/
theorem c5_counterexample :
    completedSession.completed = true ∧
    ((publicPatchSession baseDB (some "s3") none none (some "tok3")
          pbFalse).1.sessions.find?
        (fun t => t.id == "s3")).map (fun t => t.completed) = some false := by
  refine ⟨rfl, by decide⟩

/-- C5 amended: `completed` moves from true back to false only when a
patch explicitly carries `completed=false`; a patch that omits
`completed` or sets it true leaves a completed session completed, on
both the public and the internal patch path. -/
theorem c5_completed_reset_needs_explicit_false (db : DB)
    (pid x a q cfg xs ia ipid : Option String) (pb : PatchBody) (ib : InternalPatchBody)
    (s si : Session) :
    (resolveSessionRaw db pid x a q = .ok s →
     db.sessions.find? (fun t => t.id == s.id) = some s →
     s.completed = true → pb.completed ≠ some false →
     ((publicPatchSession db pid x a q pb).1.sessions.find?
        (fun t => t.id == s.id)).map (fun t => t.completed) = some true) ∧
    (checkInternalSecret cfg xs ia = .ok →
     isPresent (ipid.map (fun t => jsTrim t)) = true →
     findById db ((ipid.map (fun t => jsTrim t)).getD "") = some si →
     si.completed = true → ib.completed ≠ some false →
     (findById (internalPatchSession db cfg xs ia ipid ib).1
        ((ipid.map (fun t => jsTrim t)).getD "")).map (fun t => t.completed) =
       some true) := by
  constructor
  · intro hres hfind hc hb
    rw [publicPatchSession_sessions db pid x a q pb s hres]
    have hmap :
        (updateSessionById db.sessions s.id (fun t => applySessionUpdates t pb)).find?
            (fun t => t.id == s.id) =
          (db.sessions.find? (fun t => t.id == s.id)).map
            (patchMap s.id (fun t => applySessionUpdates t pb)) := by
      unfold updateSessionById
      exact find?_map_pres _ _ _
        (fun t => by rw [patchMap_id s.id _ (fun t => applySessionUpdates_id t pb) t])
    rw [hmap, hfind]
    have hgs : patchMap s.id (fun t => applySessionUpdates t pb) s =
        applySessionUpdates s pb := by
      simp [patchMap]
    have hcmp : (applySessionUpdates s pb).completed = true := by
      rw [applySessionUpdates_completed]
      cases hpb : pb.completed with
      | none => simpa using hc
      | some b =>
        cases b with
        | false => exact absurd hpb hb
        | true => rfl
    simp [hgs, hcmp]
  · intro hsec hid hfind hc hb
    rw [findById_after_internalPatch db cfg xs ia ipid ib si hsec hid hfind]
    have hcmp : (applyInternalUpdates si ib).completed = true := by
      rw [applyInternalUpdates_completed]
      cases hib : ib.completed with
      | none => simpa using hc
      | some b =>
        cases b with
        | false => exact absurd hib hb
        | true => rfl
    simp [hcmp]

/-- Witness for the amended C5: a status-only patch leaves the
completed fixture session completed. -/
theorem c5_completed_reset_needs_explicit_false_witness :
    ((publicPatchSession baseDB (some "s3") none none (some "tok3")
          pbStatus).1.sessions.find?
        (fun t => t.id == "s3")).map (fun t => t.completed) = some true := by
  have h := (c5_completed_reset_needs_explicit_false baseDB (some "s3") none none
      (some "tok3") (some "sec") (some "sec") none (some "s3") pbStatus
      { status := none, endedAt := none, completed := none } completedSession
      completedSession).1
    (by decide) (by decide) rfl (by decide)
  exact h

/-- `userCount` reads only the users table. -/
theorem userCount_congr (d1 d2 : DB) (h : d1.users = d2.users) (uid : String) :
    userCount d1 uid = userCount d2 uid := by
  unfold userCount
  rw [h]

/-- The increment write raises an existing counter by exactly one. -/
theorem userCount_increment_db (db : DB) (uid : String) (c : Nat)
    (h : userCount db uid = some c) :
    ((incrementCompletedCount db.users uid).find? (fun u => u.id == uid)).map
      (fun u => u.completedSessionsCount) = some (c + 1) := by
  rw [find?_incrementCompletedCount db.users uid]
  unfold userCount at h
  rw [h]
  rfl

/-- C1: on both patch paths, a request that sets `completed` true on a
session whose stored flag was false produces — in one step — the
session update together with the owner counter raised by exactly one;
a request without `completed`, or one hitting an already-completed
session, leaves every counter untouched; and repeating the very same
request N times changes nothing after the first application, so the
aggregate rises by at most one per session across all retries. -/
theorem c1_completion_counter_exactly_once (db : DB)
    (pid x a q cfg xs ia ipid : Option String) (pb : PatchBody) (ib : InternalPatchBody)
    (s si : Session) (c ci : Nat) :
    (resolveSessionRaw db pid x a q = .ok s →
     userCount db s.createdBy = some c →
     ((pb.completed = some true → s.completed = false →
        publicPatchSession db pid x a q pb =
          ({ db with
             sessions :=
               updateSessionById db.sessions s.id (fun t => applySessionUpdates t pb)
             users := incrementCompletedCount db.users s.createdBy }, .ok) ∧
        userCount (publicPatchSession db pid x a q pb).1 s.createdBy = some (c + 1)) ∧
      (pb.completed = none ∨ s.completed = true →
        (publicPatchSession db pid x a q pb).1.users = db.users) ∧
      (∀ n : Nat,
        userCount (iteratePublicPatch pid x a q pb (n + 1) db) s.createdBy =
          userCount (iteratePublicPatch pid x a q pb 1 db) s.createdBy))) ∧
    (checkInternalSecret cfg xs ia = .ok →
     isPresent (ipid.map (fun t => jsTrim t)) = true →
     findById db ((ipid.map (fun t => jsTrim t)).getD "") = some si →
     userCount db si.createdBy = some ci →
     ((ib.completed = some true → si.completed = false →
        internalPatchSession db cfg xs ia ipid ib =
          ({ db with
             sessions :=
               updateSessionById db.sessions ((ipid.map (fun t => jsTrim t)).getD "")
                 (fun t => applyInternalUpdates t ib)
             users := incrementCompletedCount db.users si.createdBy }, .ok) ∧
        userCount (internalPatchSession db cfg xs ia ipid ib).1 si.createdBy =
          some (ci + 1)) ∧
      (ib.completed = none ∨ si.completed = true →
        (internalPatchSession db cfg xs ia ipid ib).1.users = db.users) ∧
      (∀ n : Nat,
        userCount (iterateInternalPatch cfg xs ia ipid ib (n + 1) db) si.createdBy =
          userCount (iterateInternalPatch cfg xs ia ipid ib 1 db) si.createdBy))) := by
  constructor
  · intro hres hcount
    refine ⟨?_, ?_, ?_⟩
    · intro hpb hnc
      have hinc : shouldIncrementCompleted pb.completed s = true := by
        simp [shouldIncrementCompleted, hpb, hnc]
      have heq := publicPatchSession_ok db pid x a q pb s hres
      simp only [hinc, if_true] at heq
      constructor
      · rw [heq]
      · rw [heq]
        show ((incrementCompletedCount db.users s.createdBy).find?
            (fun u => u.id == s.createdBy)).map
              (fun u => u.completedSessionsCount) = some (c + 1)
        exact userCount_increment_db db s.createdBy c hcount
    · intro hdisj
      have hni : shouldIncrementCompleted pb.completed s = false := by
        rcases hdisj with h | h
        · simp [shouldIncrementCompleted, h]
        · simp [shouldIncrementCompleted, h]
      exact publicPatchSession_users_noInc db pid x a q pb s hres hni
    · intro n
      have h := iteratePublicPatch_users_stable db pid x a q pb s hres n
      unfold userCount
      rw [h]
  · intro hsec hid hfind hcount
    refine ⟨?_, ?_, ?_⟩
    · intro hib hnc
      have hinc : shouldIncrementCompleted ib.completed si = true := by
        simp [shouldIncrementCompleted, hib, hnc]
      have heq := internalPatchSession_ok db cfg xs ia ipid ib si hsec hid hfind
      simp only [hinc, if_true] at heq
      constructor
      · rw [heq]
      · rw [heq]
        show ((incrementCompletedCount db.users si.createdBy).find?
            (fun u => u.id == si.createdBy)).map
              (fun u => u.completedSessionsCount) = some (ci + 1)
        exact userCount_increment_db db si.createdBy ci hcount
    · intro hdisj
      have hni : shouldIncrementCompleted ib.completed si = false := by
        rcases hdisj with h | h
        · simp [shouldIncrementCompleted, h]
        · simp [shouldIncrementCompleted, h]
      exact internalPatchSession_users_noInc db cfg xs ia ipid ib si hsec hid hfind hni
    · intro n
      have h := iterateInternalPatch_users_stable db cfg xs ia ipid ib si hsec hid hfind n
      unfold userCount
      rw [h]

/-- A patch body that marks the session completed. -/
def pbTrue : PatchBody :=
  { status := none, endedAt := none, completed := some true,
    lastActivityAt := none, compiledPromptHash := none }

/-- Witness for C1: marking fixture session s1 completed raises its
owner's counter from 0 to 1, and repeating the same request three times
leaves the counter where one application put it. -/
theorem c1_completion_counter_exactly_once_witness :
    userCount (publicPatchSession baseDB (some "s1") none none (some "tok1")
        pbTrue).1 baseSession.createdBy = some 1 ∧
    userCount (iteratePublicPatch (some "s1") none none (some "tok1") pbTrue 3 baseDB)
        baseSession.createdBy =
      userCount (iteratePublicPatch (some "s1") none none (some "tok1") pbTrue 1 baseDB)
        baseSession.createdBy := by
  have h := (c1_completion_counter_exactly_once baseDB (some "s1") none none (some "tok1")
      (some "sec") (some "sec") none (some "s1") pbTrue
      { status := none, endedAt := none, completed := none } baseSession baseSession 0 0).1
    (by decide) (by decide)
  exact ⟨(h.1 rfl rfl).2, h.2.2 2⟩

/-! ## Frame analysis: which shape each route leaves the session table in -/

theorem createSessionRoute_sessions_shape (db : DB) (body : Option CreateSessionBody)
    (newId token : String) (now : Int) :
    (createSessionRoute db body newId token now).1.sessions = db.sessions ∨
    ∃ created, (createSessionRoute db body newId token now).1.sessions =
      db.sessions ++ [created] := by
  unfold createSessionRoute
  rcases body with _ | b
  · exact Or.inl rfl
  · dsimp only
    repeat' split
    all_goals first
      | exact Or.inl rfl
      | exact Or.inr ⟨_, rfl⟩

theorem publicPatchSession_sessions_shape (db : DB) (pid x a q : Option String)
    (b : PatchBody) :
    (publicPatchSession db pid x a q b).1.sessions = db.sessions ∨
    ∃ k, (publicPatchSession db pid x a q b).1.sessions =
      updateSessionById db.sessions k (fun t => applySessionUpdates t b) := by
  unfold publicPatchSession
  cases hres : resolveSessionRaw db pid x a q with
  | ok s =>
    right
    refine ⟨s.id, ?_⟩
    by_cases hg : shouldIncrementCompleted b.completed s <;> simp [hg]
  | invalidRequest => exact Or.inl rfl
  | notFound => exact Or.inl rfl
  | forbidden => exact Or.inl rfl

theorem internalPatchSession_sessions_shape (db : DB) (cfg xs ia pid : Option String)
    (b : InternalPatchBody) :
    (internalPatchSession db cfg xs ia pid b).1.sessions = db.sessions ∨
    ∃ k, (internalPatchSession db cfg xs ia pid b).1.sessions =
      updateSessionById db.sessions k (fun t => applyInternalUpdates t b) := by
  unfold internalPatchSession
  cases hsec : checkInternalSecret cfg xs ia with
  | notConfigured => exact Or.inl rfl
  | unauthorized => exact Or.inl rfl
  | ok =>
    dsimp only
    split
    · exact Or.inl rfl
    · split
      · exact Or.inl rfl
      · rename_i s hfind
        right
        refine ⟨(pid.map (fun t => jsTrim t)).getD "", ?_⟩
        by_cases hg : shouldIncrementCompleted b.completed s <;> simp [hg]

theorem postTranscriptSegments_sessions_shape (db : DB) (pid x a q : Option String)
    (body : Option (List SegIn)) (now : Int) :
    (postTranscriptSegments db pid x a q body now).1.sessions = db.sessions ∨
    ∃ k, (postTranscriptSegments db pid x a q body now).1.sessions =
      updateSessionById db.sessions k (fun t => { t with lastActivityAt := now }) := by
  unfold postTranscriptSegments
  cases hres : resolveSessionRaw db pid x a q with
  | ok s =>
    dsimp only
    repeat' split
    all_goals first
      | exact Or.inl rfl
      | exact Or.inr ⟨s.id, rfl⟩
  | invalidRequest => exact Or.inl rfl
  | notFound => exact Or.inl rfl
  | forbidden => exact Or.inl rfl

theorem publicPostReport_sessions_eq (db : DB) (pid x a q : Option String)
    (body : Option ReportBody) :
    (publicPostReport db pid x a q body).1.sessions = db.sessions := by
  unfold publicPostReport
  cases hres : resolveSessionRaw db pid x a q with
  | ok s =>
    dsimp only
    repeat' split
    all_goals rfl
  | invalidRequest => rfl
  | notFound => rfl
  | forbidden => rfl

theorem internalPostReport_sessions_eq (db : DB) (cfg xs ia pid : Option String)
    (body : Option ReportBody) :
    (internalPostReport db cfg xs ia pid body).1.sessions = db.sessions := by
  unfold internalPostReport
  cases hsec : checkInternalSecret cfg xs ia with
  | notConfigured => rfl
  | unauthorized => rfl
  | ok =>
    dsimp only
    repeat' split
    all_goals rfl

theorem updateResearchRoute_sessions_eq (db : DB) (cu : Option String) (rid : String)
    (body : Option ResearchPayload) :
    (updateResearchRoute db cu rid body).1.sessions = db.sessions := by
  unfold updateResearchRoute
  repeat' split
  all_goals try (dsimp only; split)
  all_goals rfl

theorem deleteSessionRoute_sessions_shape (db : DB) (cu pid : Option String) :
    (deleteSessionRoute db cu pid).1.sessions = db.sessions ∨
    ∃ p, (deleteSessionRoute db cu pid).1.sessions = db.sessions.filter p := by
  unfold deleteSessionRoute
  repeat'
    first
      | exact Or.inl rfl
      | exact Or.inr ⟨_, rfl⟩
      | split
      | dsimp only

theorem internalStaleRoute_sessions_eq (db : DB) (cfg xs ia : Option String)
    (q : NumVal) (now : Int) :
    (internalStaleRoute db cfg xs ia q now).1.sessions = db.sessions := by
  unfold internalStaleRoute
  cases hsec : checkInternalSecret cfg xs ia <;> rfl

/-- An id-keyed update by a snapshot-preserving transform leaves the
snapshots of the found row unchanged. -/
theorem snapshots_after_update (l : List Session) (k : String) (g : Session → Session)
    (hgg : ∀ t, (g t).globalContextSnapshot = t.globalContextSnapshot)
    (hgr : ∀ t, (g t).researchContextSnapshot = t.researchContextSnapshot)
    (hgi : ∀ t, (g t).id = t.id)
    (sid : String) (s s' : Session)
    (h1 : l.find? (fun x => x.id == sid) = some s)
    (h2 : (updateSessionById l k g).find? (fun x => x.id == sid) = some s') :
    s'.globalContextSnapshot = s.globalContextSnapshot ∧
    s'.researchContextSnapshot = s.researchContextSnapshot := by
  have hmap : (updateSessionById l k g).find? (fun x => x.id == sid)
      = (l.find? (fun x => x.id == sid)).map (patchMap k g) := by
    unfold updateSessionById
    exact find?_map_pres _ _ _ (fun t => by rw [patchMap_id k g hgi t])
  rw [hmap, h1] at h2
  have hs' : s' = patchMap k g s := by
    simpa using h2.symm
  subst hs'
  unfold patchMap
  by_cases hk : (s.id == k) = true <;> simp [hk, hgg, hgr]

/-- With unique session ids, a row found after a filter is the row
found before it. -/
theorem find?_filter_eq_of_nodup (l : List Session) (q : Session → Bool) (sid : String)
    (s s' : Session)
    (hnd : (l.map (fun x => x.id)).Nodup)
    (h1 : l.find? (fun x => x.id == sid) = some s)
    (h2 : (l.filter q).find? (fun x => x.id == sid) = some s') :
    s' = s := by
  have hs'f : s' ∈ l.filter q := List.mem_of_find?_eq_some h2
  have hs'l : s' ∈ l := List.mem_of_mem_filter hs'f
  have hsl : s ∈ l := List.mem_of_find?_eq_some h1
  have hs'id : s'.id = sid := by simpa using List.find?_some h2
  have hsid : s.id = sid := by simpa using List.find?_some h1
  exact List.inj_on_of_nodup_map hnd hs'l hsl (by rw [hs'id, hsid])

/-- An appended row never shadows an existing hit of `find?`. -/
theorem find?_append_left (l l2 : List Session) (p : Session → Bool) (s : Session)
    (h : l.find? p = some s) : (l ++ l2).find? p = some s := by
  rw [List.find?_append, h]
  rfl

/-- C2: the `globalContextSnapshot` and `researchContextSnapshot`
stored on a session are never changed by any later operation of the
modelled surface — every patch, append, report write, research edit,
delete, sweep, or new session creation leaves the snapshots of an
existing session byte-for-byte intact (assuming the store's unique
session ids). -/
theorem c2_snapshots_immutable (db : DB) (op : Op) (sid : String) (s s' : Session)
    (hnd : (db.sessions.map (fun x => x.id)).Nodup)
    (h1 : db.sessions.find? (fun x => x.id == sid) = some s)
    (h2 : (applyOp db op).sessions.find? (fun x => x.id == sid) = some s') :
    s'.globalContextSnapshot = s.globalContextSnapshot ∧
    s'.researchContextSnapshot = s.researchContextSnapshot := by
  have same : ∀ l : List Session, l = db.sessions →
      l.find? (fun x => x.id == sid) = some s' →
      s'.globalContextSnapshot = s.globalContextSnapshot ∧
      s'.researchContextSnapshot = s.researchContextSnapshot := by
    intro l hl hf
    subst hl
    rw [h1] at hf
    have : s' = s := (Option.some.inj hf).symm
    subst this
    exact ⟨rfl, rfl⟩
  cases op with
  | createSession body newId token now =>
    simp only [applyOp] at h2
    rcases createSessionRoute_sessions_shape db body newId token now with h | ⟨created, h⟩
    · exact same _ h h2
    · rw [h] at h2
      rw [find?_append_left db.sessions [created] _ s h1] at h2
      have : s' = s := (Option.some.inj h2).symm
      subst this
      exact ⟨rfl, rfl⟩
  | publicPatch pid x a q b =>
    simp only [applyOp] at h2
    rcases publicPatchSession_sessions_shape db pid x a q b with h | ⟨k, h⟩
    · exact same _ h h2
    · rw [h] at h2
      exact snapshots_after_update db.sessions k (fun t => applySessionUpdates t b)
        (fun t => rfl) (fun t => rfl)
        (fun t => applySessionUpdates_id t b) sid s s' h1 h2
  | internalPatch cfg xs ia pid b =>
    simp only [applyOp] at h2
    rcases internalPatchSession_sessions_shape db cfg xs ia pid b with h | ⟨k, h⟩
    · exact same _ h h2
    · rw [h] at h2
      exact snapshots_after_update db.sessions k (fun t => applyInternalUpdates t b)
        (fun t => rfl) (fun t => rfl)
        (fun t => applyInternalUpdates_id t b) sid s s' h1 h2
  | appendSegments pid x a q body now =>
    simp only [applyOp] at h2
    rcases postTranscriptSegments_sessions_shape db pid x a q body now with h | ⟨k, h⟩
    · exact same _ h h2
    · rw [h] at h2
      exact snapshots_after_update db.sessions k
        (fun t => { t with lastActivityAt := now }) (fun t => rfl) (fun t => rfl)
        (fun t => rfl) sid s s' h1 h2
  | publicReport pid x a q body =>
    simp only [applyOp] at h2
    exact same _ (publicPostReport_sessions_eq db pid x a q body) h2
  | internalReport cfg xs ia pid body =>
    simp only [applyOp] at h2
    exact same _ (internalPostReport_sessions_eq db cfg xs ia pid body) h2
  | updateResearch cu rid body =>
    simp only [applyOp] at h2
    exact same _ (updateResearchRoute_sessions_eq db cu rid body) h2
  | deleteSession cu pid =>
    simp only [applyOp] at h2
    rcases deleteSessionRoute_sessions_shape db cu pid with h | ⟨p, h⟩
    · exact same _ h h2
    · rw [h] at h2
      have : s' = s := find?_filter_eq_of_nodup db.sessions p sid s s' hnd h1 h2
      subst this
      exact ⟨rfl, rfl⟩
  | staleSweep cfg xs ia q now =>
    simp only [applyOp] at h2
    exact same _ (internalStaleRoute_sessions_eq db cfg xs ia q now) h2

/-- Witness for C2: a status patch and a research edit both leave the
fixture session's snapshots exactly as captured. -/
theorem c2_snapshots_immutable_witness :
    (applySessionUpdates baseSession pbStatus).globalContextSnapshot =
        baseSession.globalContextSnapshot ∧
    (applySessionUpdates baseSession pbStatus).researchContextSnapshot =
        baseSession.researchContextSnapshot :=
  c2_snapshots_immutable baseDB
    (Op.publicPatch (some "s1") none none (some "tok1") pbStatus) "s1"
    baseSession (applySessionUpdates baseSession pbStatus)
    (by decide) (by decide) (by decide)
